import Mathlib

/-!
Verification of the Concord signaling server and client orchestrator
(`src/server/roomManager.js`, `src/server/index.js`, `src/public/js/socket.js`)
via a shallow embedding in Lean.

JavaScript `Map` objects are embedded as association lists with
`Map.set` / `Map.delete` / `Map.get` semantics (unique keys, in-place
replacement on overwrite).  Socket.io emissions are embedded as explicit
event values carrying their addressing information (`socket.emit`,
`socket.to(channel).emit`, `io.to(channel).emit`); socket.io channel
membership itself (`socket.join` / `socket.leave`) is transport-level and
is not needed by any claim, so it is not tracked.  `Date.now()`
timestamps and `console.log` calls are not observable state and are
omitted.
-/

/-- A JavaScript value passed where a string is expected: either an actual
string, or any non-string value (`undefined`, `null`, numbers, objects, ...).
`sanitizeUsername` only distinguishes these two cases (plus string emptiness)
via `!username || typeof username !== 'string'`. -/
inductive JsVal where
  | str (s : String)
  | nonString
deriving DecidableEq, Repr

/-- JavaScript whitespace as matched by `\s` and removed by `String.trim`
(ASCII portion: space, tab, LF, VT, FF, CR). -/
def isJsWhitespace (c : Char) : Bool :=
  c = ' ' || c = '\t' || c = '\n' || c = '\x0b' || c = '\x0c' || c = '\r'

/-- The character class kept by the regex `[a-zA-Z0-9\s\-\_\.]` in
`RoomManager.sanitizeUsername`. -/
def allowedUsernameChar (c : Char) : Bool :=
  ('a' ≤ c && c ≤ 'z') || ('A' ≤ c && c ≤ 'Z') || ('0' ≤ c && c ≤ '9') ||
    isJsWhitespace c || c = '-' || c = '_' || c = '.'

/-- `String.prototype.trim`: drop whitespace from both ends. -/
def jsTrim (l : List Char) : List Char :=
  ((l.dropWhile isJsWhitespace).reverse.dropWhile isJsWhitespace).reverse

/-- The string pipeline `.trim().slice(0, 50).replace(/[^a-zA-Z0-9\s\-\_\.]/g, '')`
from `RoomManager.sanitizeUsername`. -/
def sanitizePipeline (l : List Char) : List Char :=
  ((jsTrim l).take 50).filter allowedUsernameChar

/-- `RoomManager.sanitizeUsername` (src/server/roomManager.js:77-85).
`!username` is true for the empty string; any non-string input fails the
`typeof` test; `|| 'Anonymous'` replaces the empty sanitized result. -/
def sanitizeUsername (username : JsVal) : String :=
  match username with
  | .nonString => "Anonymous"
  | .str s =>
    if s = "" then "Anonymous"
    else
      let r := sanitizePipeline s.toList
      if r = [] then "Anonymous" else String.mk r

/-- A room participant (class `Participant`, src/server/roomManager.js:3-10).
`getParticipantsList` projects exactly these four fields, so the list view
coincides with the participant record itself. -/
structure Participant where
  socketId : String
  username : String
  peerId : String
  isMuted : Bool
deriving DecidableEq, Repr

/-- `Map.set` keyed by `socketId`: replace in place, or append a fresh key. -/
def addP : List Participant → Participant → List Participant
  | [], p => [p]
  | q :: rest, p => if q.socketId = p.socketId then p :: rest else q :: addP rest p

/-- `Map.delete` keyed by `socketId` (keys are unique, so deleting every
occurrence coincides with deleting the one entry). -/
def removeP : List Participant → String → List Participant
  | [], _ => []
  | q :: rest, sid => if q.socketId = sid then removeP rest sid else q :: removeP rest sid

/-- `Map.get` keyed by `socketId`. -/
def getP : List Participant → String → Option Participant
  | [], _ => none
  | q :: rest, sid => if q.socketId = sid then some q else getP rest sid

/-- A room (class `Room`, src/server/roomManager.js:12-50).  The creation
timestamp `createdAt` is never read by any handler and is omitted. -/
structure Room where
  id : String
  creator : String
  participants : List Participant
deriving DecidableEq, Repr

/-- `Room.addParticipant` (src/server/roomManager.js:20-24). -/
def Room.addParticipant (r : Room) (socketId username peerId : String) : Room :=
  { r with participants := addP r.participants ⟨socketId, username, peerId, false⟩ }

/-- `Room.removeParticipant` (src/server/roomManager.js:26-28). -/
def Room.removeParticipant (r : Room) (socketId : String) : Room :=
  { r with participants := removeP r.participants socketId }

/-- `Room.getParticipant` (src/server/roomManager.js:30-32). -/
def Room.getParticipant (r : Room) (socketId : String) : Option Participant :=
  getP r.participants socketId

/-- `Room.isCreator` (src/server/roomManager.js:34-36). -/
def Room.isCreator (r : Room) (socketId : String) : Bool :=
  r.creator = socketId

/-- `Room.getParticipantsList` (src/server/roomManager.js:38-45): a snapshot
of the participant values (the projection keeps all four fields). -/
def Room.getParticipantsList (r : Room) : List Participant :=
  r.participants

/-- `Room.isEmpty` (src/server/roomManager.js:47-49). -/
def Room.isEmpty (r : Room) : Bool :=
  r.participants.isEmpty

/-- Generic association-list `Map.get`. -/
def alookup {β : Type} : List (String × β) → String → Option β
  | [], _ => none
  | (k, v) :: rest, key => if k = key then some v else alookup rest key

/-- Generic association-list `Map.set`. -/
def aset {β : Type} : List (String × β) → String → β → List (String × β)
  | [], key, v => [(key, v)]
  | (k, w) :: rest, key, v =>
    if k = key then (key, v) :: rest else (k, w) :: aset rest key v

/-- Generic association-list `Map.delete`. -/
def aerase {β : Type} : List (String × β) → String → List (String × β)
  | [], _ => []
  | (k, v) :: rest, key => if k = key then aerase rest key else (k, v) :: aerase rest key

/-- The per-connection closure state of the connection handler
(src/server/index.js:65-66): `currentRoomId` and `currentUsername`.  Both are
`null` until the first successful join; a session is recorded here exactly
once it has joined (absence from the session map embeds the `null` state,
which is also the state of a connection that never joined). -/
structure SessionCtx where
  currentRoomId : String
  currentUsername : String
deriving DecidableEq, Repr

/-- The shared server state: the room registry (`RoomManager.rooms`,
src/server/roomManager.js:54) plus the per-socket session contexts. -/
structure ServerState where
  rooms : List (String × Room)
  sessions : List (String × SessionCtx)
deriving DecidableEq, Repr

/-- Fresh server state: empty registry, no sessions. -/
def initState : ServerState := ⟨[], []⟩

/-- `RoomManager.getRoom` (src/server/roomManager.js:62-64). -/
def getRoom (st : ServerState) (roomId : String) : Option Room :=
  alookup st.rooms roomId

/-- Messages emitted by the server handlers (payload shapes as in
src/server/index.js).  WebRTC payloads are opaque strings relayed verbatim. -/
inductive Msg where
  | roomJoined (participants : List Participant) (isCreator : Bool)
  | userJoined (socketId username peerId : String)
  | userLeft (socketId : String)
  | userKicked (socketId : String)
  | youWereKicked
  | userMuted (socketId : String) (isMuted : Bool)
  | errorMsg (message : String)
  | webrtcOffer (fromId : String) (offer : String)
  | webrtcAnswer (fromId : String) (answer : String)
  | iceCandidate (fromId : String) (candidate : String)
deriving DecidableEq, Repr

/-- An emission with its addressing: `socket.emit` (to one socket),
`socket.to(channel).emit` (to a channel, excluding the sender),
`io.to(channel).emit` (to a channel, nobody excluded). -/
inductive Emit where
  | toSocket (socketId : String) (m : Msg)
  | toChannelExcept (channel sender : String) (m : Msg)
  | toChannelAll (channel : String) (m : Msg)
deriving DecidableEq, Repr

/-- The `join-room` handler (src/server/index.js:69-109): sanitize the
username, get-or-create the room with this socket as prospective creator,
add the participant, record the session context, confirm to the joiner with
the other participants and the creator bit, and announce to the room. -/
def joinRoom (st : ServerState) (s roomId : String) (username : JsVal)
    (peerId : String) : ServerState × List Emit :=
  let sanitized := sanitizeUsername username
  let room0 :=
    match alookup st.rooms roomId with
    | some r => r
    | none => Room.mk roomId s []
  let room := room0.addParticipant s sanitized peerId
  let others := room.getParticipantsList.filter (fun p => p.socketId ≠ s)
  ({ rooms := aset st.rooms roomId room,
     sessions := aset st.sessions s ⟨roomId, sanitized⟩ },
   [Emit.toSocket s (Msg.roomJoined others (room.isCreator s)),
    Emit.toChannelExcept roomId s (Msg.userJoined s sanitized peerId)])

/-- The `webrtc-offer` handler (src/server/index.js:112-117): relay the
payload verbatim to the target's channel, tagged with the sender's id.
No session-state check of any kind is made. -/
def webrtcOffer (st : ServerState) (s toSid offer : String) : ServerState × List Emit :=
  (st, [Emit.toChannelExcept toSid s (Msg.webrtcOffer s offer)])

/-- The `webrtc-answer` handler (src/server/index.js:119-125). -/
def webrtcAnswer (st : ServerState) (s toSid answer : String) : ServerState × List Emit :=
  (st, [Emit.toChannelExcept toSid s (Msg.webrtcAnswer s answer)])

/-- The `ice-candidate` handler (src/server/index.js:127-133). -/
def iceCandidateRelay (st : ServerState) (s toSid candidate : String) :
    ServerState × List Emit :=
  (st, [Emit.toChannelExcept toSid s (Msg.iceCandidate s candidate)])

/-- The `kick-user` handler (src/server/index.js:171-207): silent return when
the caller has no room context or the room is gone; explicit error to the
caller when it is not the creator or targets itself; otherwise remove the
target, notify it, and announce the kick.  (`kickedSocket.leave` only alters
transport channel membership.) -/
def kickUser (st : ServerState) (s targetSocketId : String) : ServerState × List Emit :=
  match alookup st.sessions s with
  | none => (st, [])
  | some ctx =>
    match alookup st.rooms ctx.currentRoomId with
    | none => (st, [])
    | some room =>
      if ¬ room.isCreator s then
        (st, [Emit.toSocket s (Msg.errorMsg "Only the room creator can kick users")])
      else if targetSocketId = s then
        (st, [Emit.toSocket s (Msg.errorMsg "Cannot kick yourself")])
      else
        let rooms := aset st.rooms ctx.currentRoomId (room.removeParticipant targetSocketId)
        ({ st with rooms := rooms },
         [Emit.toChannelAll targetSocketId Msg.youWereKicked,
          Emit.toChannelExcept ctx.currentRoomId s (Msg.userKicked targetSocketId)])

/-- The `disconnect` handler (src/server/index.js:210-231): when a room
context exists and the room is live, remove the participant, announce the
departure, and delete the room if it became empty.  The session closure
(and with it `currentRoomId`) dies with the socket. -/
def disconnectSocket (st : ServerState) (s : String) : ServerState × List Emit :=
  match alookup st.sessions s with
  | none => (st, [])
  | some ctx =>
    match alookup st.rooms ctx.currentRoomId with
    | none => ({ st with sessions := aerase st.sessions s }, [])
    | some room =>
      let room' := room.removeParticipant s
      let rooms :=
        if room'.isEmpty then aerase st.rooms ctx.currentRoomId
        else aset st.rooms ctx.currentRoomId room'
      ({ rooms := rooms, sessions := aerase st.sessions s },
       [Emit.toChannelExcept ctx.currentRoomId s (Msg.userLeft s)])

/-- The events the room-registry invariant quantifies over: join, kick and
disconnect requests, each carrying the issuing socket's id. -/
inductive Event where
  | join (s roomId : String) (username : JsVal) (peerId : String)
  | kick (s targetSocketId : String)
  | disc (s : String)
deriving DecidableEq, Repr

/-- One handler dispatch. -/
def handle (st : ServerState) : Event → ServerState × List Emit
  | .join s roomId username peerId => joinRoom st s roomId username peerId
  | .kick s target => kickUser st s target
  | .disc s => disconnectSocket st s

/-- The state part of one handler dispatch. -/
def step (st : ServerState) (e : Event) : ServerState :=
  (handle st e).1

/-- Run a sequence of events from a state. -/
def run (st : ServerState) : List Event → ServerState
  | [] => st
  | e :: evs => run (step st e) evs

/-!
Client-side orchestrator (`WebRTCManager`, src/public/js/socket.js:148-645).
A `SimplePeer` instance is opaque; the model tracks which remote socket ids
have a live peer entry in `this.peers` and which have an attached `<audio>`
DOM element, and records the calls made on the opaque collaborators
(`peer.destroy()`, `peer.signal(...)`, DOM removal, the `peerDisconnected`
callback, peer construction) as observable effects.
-/

/-- Client orchestrator state: the key set of `this.peers` and the set of
socket ids with an `audio-<id>` DOM element. -/
structure RtcState where
  peers : List String
  audioElems : List String
deriving DecidableEq, Repr

/-- Observable calls the orchestrator makes on its collaborators. -/
inductive RtcEffect where
  | createdPeer (socketId : String) (isInitiator : Bool)
  | signalPeer (socketId : String) (payload : String)
  | destroyPeer (socketId : String)
  | removeAudio (socketId : String)
  | peerDisconnectedCb (socketId : String)
deriving DecidableEq, Repr

/-- `WebRTCManager.createPeerConnection` (src/public/js/socket.js:364-454):
an early return (yielding `undefined`) when a peer already exists, else a new
`SimplePeer` stored under the remote id.  The returned `Bool` records whether
a peer value was returned (`if (peer)` in `handleOffer`). -/
def createPeerConnection (st : RtcState) (remoteSocketId : String)
    (isInitiator : Bool) : RtcState × List RtcEffect × Bool :=
  if st.peers.contains remoteSocketId then (st, [], false)
  else ({ st with peers := remoteSocketId :: st.peers },
        [RtcEffect.createdPeer remoteSocketId isInitiator], true)

/-- `WebRTCManager.handleOffer` (src/public/js/socket.js:457-463): create a
responder peer (a no-op if one exists) and, only if one was actually created,
apply the offer via `peer.signal`. -/
def handleOffer (st : RtcState) (fromSocketId offer : String) :
    RtcState × List RtcEffect :=
  let r := createPeerConnection st fromSocketId false
  if r.2.2 then (r.1, r.2.1 ++ [RtcEffect.signalPeer fromSocketId offer])
  else (r.1, r.2.1)

/-- `WebRTCManager.handleAnswer` (src/public/js/socket.js:466-472): apply the
answer to the existing peer, or do nothing. -/
def handleAnswer (st : RtcState) (fromSocketId answer : String) :
    RtcState × List RtcEffect :=
  if st.peers.contains fromSocketId then
    (st, [RtcEffect.signalPeer fromSocketId answer])
  else (st, [])

/-- `WebRTCManager.handleICECandidate` (src/public/js/socket.js:475-480):
apply the candidate to the existing peer, or do nothing — there is no buffer
for candidates that arrive before a peer exists. -/
def handleICECandidate (st : RtcState) (fromSocketId candidate : String) :
    RtcState × List RtcEffect :=
  if st.peers.contains fromSocketId then
    (st, [RtcEffect.signalPeer fromSocketId candidate])
  else (st, [])

/-- `WebRTCManager.removePeer` (src/public/js/socket.js:563-579): destroy and
delete the peer if present, remove the `audio-<id>` element if present, and
invoke the `peerDisconnected` callback unconditionally (the application
registers this callback at startup). -/
def removePeer (st : RtcState) (socketId : String) : RtcState × List RtcEffect :=
  let destroyFx := if st.peers.contains socketId then [RtcEffect.destroyPeer socketId] else []
  let peers := st.peers.filter (fun sid => sid ≠ socketId)
  let audioFx := if st.audioElems.contains socketId then [RtcEffect.removeAudio socketId] else []
  let audioElems := st.audioElems.filter (fun sid => sid ≠ socketId)
  (⟨peers, audioElems⟩, destroyFx ++ audioFx ++ [RtcEffect.peerDisconnectedCb socketId])

/-!
Voice-activity detection (src/public/js/socket.js:241-361 and 509-560).
Each animation-frame callback is one tick.  The analyser's measured volume
(`rms * 255`, a nonnegative real computed from the sample window) is the
tick's input, embedded as a rational; the properties proved quantify over
every possible volume value, so every concrete window is covered.  DOM
updates (level bar, status icons, button classes) are UI-only and omitted;
the `callbacks.speaking` invocation is the observable event.
-/

/-- A speaking-state event delivered through `callbacks.speaking`. -/
inductive VadEvent where
  | speaking (socketId : String) (flag : Bool)
deriving DecidableEq, Repr

/-- Per-remote-stream detector state (`detectSpeaking` closure variables,
src/public/js/socket.js:520-522). -/
structure VadState where
  volumeHistory : List ℚ
  isSpeaking : Bool
deriving DecidableEq, Repr

/-- One `checkAudioLevel` tick of `WebRTCManager.detectSpeaking`
(src/public/js/socket.js:524-557): push the volume into a 50-sample history,
take the larger of 5 and 1.5× the history average as threshold, and emit a
speaking event only when the boolean flag flips. -/
def detectSpeakingTick (socketId : String) (st : VadState) (volume : ℚ) :
    VadState × List VadEvent :=
  let hist0 := st.volumeHistory ++ [volume]
  let hist := if hist0.length > 50 then hist0.drop 1 else hist0
  let avgVolume := hist.sum / hist.length
  let threshold := max 5 (avgVolume * (3 / 2))
  let newIsSpeaking : Bool := volume > threshold
  if newIsSpeaking ≠ st.isSpeaking then
    (⟨hist, newIsSpeaking⟩, [VadEvent.speaking socketId newIsSpeaking])
  else (⟨hist, st.isSpeaking⟩, [])

/-- Local-microphone monitor state (`monitorLocalAudio` closure variables,
src/public/js/socket.js:252-258): the adaptive min/max envelope, the
100-sample history and the current flag. -/
structure LocalVadState where
  maxVolume : ℚ
  minVolume : ℚ
  volumeHistory : List ℚ
  isLocalSpeaking : Bool
deriving DecidableEq, Repr

/-- One `checkLocalAudioLevel` tick of `WebRTCManager.monitorLocalAudio`
(src/public/js/socket.js:260-357); `isMuted` is the manager's mute flag read
by the tick.  The min/max envelope and the derived percentage only drive the
level bar; the speaking decision is `volume > max 5 (avg * 1.5) && !muted`,
and the event fires only on a flip of the flag. -/
def monitorLocalAudioTick (st : LocalVadState) (volume : ℚ) (isMuted : Bool) :
    LocalVadState × List VadEvent :=
  let hist0 := st.volumeHistory ++ [volume]
  let hist := if hist0.length > 100 then hist0.drop 1 else hist0
  let maxVolume := if volume > st.maxVolume then volume else st.maxVolume * (999 / 1000)
  let minVolume := if volume < st.minVolume ∧ volume > 0 then volume else st.minVolume
  let avgVolume := hist.sum / hist.length
  let threshold := max 5 (avgVolume * (3 / 2))
  let newIsLocalSpeaking : Bool := volume > threshold && !isMuted
  if newIsLocalSpeaking ≠ st.isLocalSpeaking then
    (⟨maxVolume, minVolume, hist, newIsLocalSpeaking⟩,
     [VadEvent.speaking "local" newIsLocalSpeaking])
  else (⟨maxVolume, minVolume, hist, st.isLocalSpeaking⟩, [])

/-! ### Association-list and participant-map lemmas -/

theorem alookup_aset_self {β : Type} (l : List (String × β)) (k : String) (v : β) :
    alookup (aset l k v) k = some v := by
  induction l with
  | nil => simp [aset, alookup]
  | cons kv rest ih =>
    by_cases h : kv.1 = k
    · simp [aset, alookup, h]
    · simp [aset, alookup, h, ih]

theorem alookup_aset_ne {β : Type} (l : List (String × β)) (k k' : String) (v : β)
    (h : k' ≠ k) : alookup (aset l k v) k' = alookup l k' := by
  induction l with
  | nil => simp [aset, alookup, h, Ne.symm h]
  | cons kv rest ih =>
    by_cases hk : kv.1 = k
    · simp [aset, alookup, hk, h, Ne.symm h]
    · by_cases hk' : kv.1 = k' <;> simp [aset, alookup, hk, hk', h, Ne.symm h, ih]

theorem alookup_aerase_self {β : Type} (l : List (String × β)) (k : String) :
    alookup (aerase l k) k = none := by
  induction l with
  | nil => simp [aerase, alookup]
  | cons kv rest ih =>
    by_cases h : kv.1 = k <;> simp [aerase, alookup, h, ih]

theorem alookup_aerase_ne {β : Type} (l : List (String × β)) (k k' : String)
    (h : k' ≠ k) : alookup (aerase l k) k' = alookup l k' := by
  induction l with
  | nil => simp [aerase, alookup]
  | cons kv rest ih =>
    by_cases hk : kv.1 = k
    · simp [aerase, alookup, hk, h, Ne.symm h, ih]
    · by_cases hk' : kv.1 = k' <;> simp [aerase, alookup, hk, hk', h, Ne.symm h, ih]

theorem getP_addP_self (l : List Participant) (p : Participant) :
    getP (addP l p) p.socketId = some p := by
  induction l with
  | nil => simp [addP, getP]
  | cons q rest ih =>
    by_cases h : q.socketId = p.socketId <;> simp [addP, getP, h, ih]

theorem getP_addP_ne (l : List Participant) (p : Participant) (sid : String)
    (h : sid ≠ p.socketId) : getP (addP l p) sid = getP l sid := by
  induction l with
  | nil => simp [addP, getP, h, Ne.symm h]
  | cons q rest ih =>
    by_cases hq : q.socketId = p.socketId
    · simp [addP, getP, hq, h, Ne.symm h]
    · by_cases hq' : q.socketId = sid <;> simp [addP, getP, hq, hq', h, Ne.symm h, ih]

theorem getP_removeP_self (l : List Participant) (t : String) :
    getP (removeP l t) t = none := by
  induction l with
  | nil => simp [removeP, getP]
  | cons q rest ih =>
    by_cases h : q.socketId = t <;> simp [removeP, getP, h, ih]

theorem getP_removeP_ne (l : List Participant) (t sid : String) (h : sid ≠ t) :
    getP (removeP l t) sid = getP l sid := by
  induction l with
  | nil => simp [removeP, getP]
  | cons q rest ih =>
    by_cases hq : q.socketId = t
    · simp [removeP, getP, hq, h, Ne.symm h, ih]
    · by_cases hq' : q.socketId = sid <;> simp [removeP, getP, hq, hq', h, Ne.symm h, ih]

theorem addP_ne_nil (l : List Participant) (p : Participant) : addP l p ≠ [] := by
  cases l with
  | nil => simp [addP]
  | cons q rest =>
    by_cases h : q.socketId = p.socketId <;> simp [addP, h]

theorem ne_nil_of_getP_isSome (l : List Participant) (sid : String)
    (h : getP l sid ≠ none) : l ≠ [] := by
  intro hl
  rw [hl] at h
  exact h rfl

/-! ### The room-registry invariant -/

/-- Every room in the registry has at least one participant. -/
def roomsNonempty (st : ServerState) : Prop :=
  ∀ R room, alookup st.rooms R = some room → room.participants ≠ []

/-- A joined session whose current room exists and records that session as
its creator is itself among the room's participants.  (This is the auxiliary
fact that makes a kick unable to empty a room: the kicker must be the
creator, may not target itself, and is itself a member.) -/
def creatorPresent (st : ServerState) : Prop :=
  ∀ s ctx room, alookup st.sessions s = some ctx →
    alookup st.rooms ctx.currentRoomId = some room →
    room.creator = s → getP room.participants s ≠ none

/-- The inductive invariant of the registry. -/
def RegistryInv (st : ServerState) : Prop := roomsNonempty st ∧ creatorPresent st

theorem registryInv_init : RegistryInv initState := by
  constructor
  · intro R room h
    simp [initState, alookup] at h
  · intro s ctx room h
    simp [initState, alookup] at h

theorem registryInv_joinRoom (st : ServerState) (s roomId : String) (username : JsVal)
    (peerId : String) (h : RegistryInv st) :
    RegistryInv (joinRoom st s roomId username peerId).1 := by
  obtain ⟨hne, hcp⟩ := h
  constructor
  · intro R rm hrm
    simp only [joinRoom] at hrm
    by_cases hR : R = roomId
    · subst hR
      rw [alookup_aset_self] at hrm
      cases hrm
      exact addP_ne_nil _ _
    · rw [alookup_aset_ne _ _ _ _ hR] at hrm
      exact hne _ _ hrm
  · intro t ctx rm hses hrm hcr
    simp only [joinRoom] at hses hrm
    by_cases ht : t = s
    · subst ht
      rw [alookup_aset_self] at hses
      cases hses
      simp only at hrm
      rw [alookup_aset_self] at hrm
      cases hrm
      simp only [Room.addParticipant]
      rw [show t = (Participant.mk t (sanitizeUsername username) peerId false).socketId from rfl,
        getP_addP_self]
      simp
    · rw [alookup_aset_ne _ _ _ _ ht] at hses
      by_cases hcur : ctx.currentRoomId = roomId
      · rw [hcur, alookup_aset_self] at hrm
        cases hrm
        cases hmatch : alookup st.rooms roomId with
        | none =>
          simp only [hmatch, Room.addParticipant] at hcr ⊢
          exact absurd hcr.symm ht
        | some r =>
          simp only [hmatch, Room.addParticipant] at hcr ⊢
          have hold := hcp t ctx r hses (hcur ▸ hmatch) hcr
          rw [getP_addP_ne _ _ _ ht]
          exact hold
      · rw [alookup_aset_ne _ _ _ _ hcur] at hrm
        exact hcp t ctx rm hses hrm hcr

theorem registryInv_kickUser (st : ServerState) (s target : String)
    (h : RegistryInv st) : RegistryInv (kickUser st s target).1 := by
  obtain ⟨hne, hcp⟩ := h
  cases hses : alookup st.sessions s with
  | none => simpa [kickUser, hses] using And.intro hne hcp
  | some ctx =>
    cases hroom : alookup st.rooms ctx.currentRoomId with
    | none => simpa [kickUser, hses, hroom] using And.intro hne hcp
    | some room =>
      by_cases hcr : room.isCreator s
      · by_cases htg : target = s
        · simpa [kickUser, hses, hroom, hcr, htg] using And.intro hne hcp
        · have hcs : room.creator = s := by
            simpa [Room.isCreator] using hcr
          have hmem : getP room.participants s ≠ none := hcp s ctx room hses hroom hcs
          constructor
          · intro R rm hrm
            simp only [kickUser, hses, hroom] at hrm
            rw [if_neg (by simp [hcr]), if_neg htg] at hrm
            simp only at hrm
            by_cases hR : R = ctx.currentRoomId
            · subst hR
              rw [alookup_aset_self] at hrm
              cases hrm
              simp only [Room.removeParticipant]
              have hmem' : getP (removeP room.participants target) s ≠ none := by
                rw [getP_removeP_ne _ _ _ (fun hh => htg hh.symm)]
                exact hmem
              exact ne_nil_of_getP_isSome _ _ hmem'
            · rw [alookup_aset_ne _ _ _ _ hR] at hrm
              exact hne _ _ hrm
          · intro t ctx' rm hses' hrm hcr'
            simp only [kickUser, hses, hroom] at hses' hrm
            rw [if_neg (by simp [hcr]), if_neg htg] at hses' hrm
            simp only at hses' hrm
            by_cases hR : ctx'.currentRoomId = ctx.currentRoomId
            · rw [hR, alookup_aset_self] at hrm
              cases hrm
              have hcr'' : room.creator = t := by
                simpa [Room.removeParticipant] using hcr'
              have hts : t = s := hcr''.symm.trans hcs
              rw [hts]
              simp only [Room.removeParticipant]
              rw [getP_removeP_ne _ _ _ (fun hh => htg hh.symm)]
              exact hmem
            · rw [alookup_aset_ne _ _ _ _ hR] at hrm
              exact hcp t ctx' rm hses' hrm hcr'
      · simpa [kickUser, hses, hroom, hcr] using And.intro hne hcp

theorem registryInv_disconnect (st : ServerState) (s : String)
    (h : RegistryInv st) : RegistryInv (disconnectSocket st s).1 := by
  obtain ⟨hne, hcp⟩ := h
  cases hses : alookup st.sessions s with
  | none => simpa [disconnectSocket, hses] using And.intro hne hcp
  | some ctx =>
    cases hroom : alookup st.rooms ctx.currentRoomId with
    | none =>
      constructor
      · intro R rm hrm
        simp only [disconnectSocket, hses, hroom] at hrm
        exact hne _ _ hrm
      · intro t ctx' rm hses' hrm hcr'
        simp only [disconnectSocket, hses, hroom] at hses' hrm
        by_cases ht : t = s
        · subst ht
          rw [alookup_aerase_self] at hses'
          cases hses'
        · rw [alookup_aerase_ne _ _ _ ht] at hses'
          exact hcp t ctx' rm hses' hrm hcr'
    | some room =>
      by_cases hempty : (room.removeParticipant s).isEmpty
      · constructor
        · intro R rm hrm
          simp only [disconnectSocket, hses, hroom] at hrm
          rw [if_pos hempty] at hrm
          by_cases hR : R = ctx.currentRoomId
          · subst hR
            rw [alookup_aerase_self] at hrm
            cases hrm
          · rw [alookup_aerase_ne _ _ _ hR] at hrm
            exact hne _ _ hrm
        · intro t ctx' rm hses' hrm hcr'
          simp only [disconnectSocket, hses, hroom] at hses' hrm
          rw [if_pos hempty] at hrm
          by_cases ht : t = s
          · subst ht
            rw [alookup_aerase_self] at hses'
            cases hses'
          · rw [alookup_aerase_ne _ _ _ ht] at hses'
            by_cases hR : ctx'.currentRoomId = ctx.currentRoomId
            · rw [hR, alookup_aerase_self] at hrm
              cases hrm
            · rw [alookup_aerase_ne _ _ _ hR] at hrm
              exact hcp t ctx' rm hses' hrm hcr'
      · constructor
        · intro R rm hrm
          simp only [disconnectSocket, hses, hroom] at hrm
          rw [if_neg hempty] at hrm
          by_cases hR : R = ctx.currentRoomId
          · subst hR
            rw [alookup_aset_self] at hrm
            cases hrm
            intro hnil
            apply hempty
            simp [Room.isEmpty, Room.removeParticipant] at hnil ⊢
            exact hnil
          · rw [alookup_aset_ne _ _ _ _ hR] at hrm
            exact hne _ _ hrm
        · intro t ctx' rm hses' hrm hcr'
          simp only [disconnectSocket, hses, hroom] at hses' hrm
          rw [if_neg hempty] at hrm
          by_cases ht : t = s
          · subst ht
            rw [alookup_aerase_self] at hses'
            cases hses'
          · rw [alookup_aerase_ne _ _ _ ht] at hses'
            by_cases hR : ctx'.currentRoomId = ctx.currentRoomId
            · rw [hR, alookup_aset_self] at hrm
              cases hrm
              have hcr'' : room.creator = t := by
                simpa [Room.removeParticipant] using hcr'
              have hold := hcp t ctx' room hses' (hR ▸ hroom) hcr''
              simp only [Room.removeParticipant]
              rw [getP_removeP_ne _ _ _ ht]
              exact hold
            · rw [alookup_aset_ne _ _ _ _ hR] at hrm
              exact hcp t ctx' rm hses' hrm hcr'

theorem registryInv_step (st : ServerState) (e : Event) (h : RegistryInv st) :
    RegistryInv (step st e) := by
  cases e with
  | join s roomId username peerId => exact registryInv_joinRoom st s roomId username peerId h
  | kick s target => exact registryInv_kickUser st s target h
  | disc s => exact registryInv_disconnect st s h

theorem registryInv_run (evs : List Event) :
    ∀ st : ServerState, RegistryInv st → RegistryInv (run st evs) := by
  induction evs with
  | nil => intro st h; exact h
  | cons e rest ih =>
    intro st h
    exact ih _ (registryInv_step st e h)

theorem room_removed_iff (st : ServerState) (e : Event) (R : String) (room : Room)
    (hR : alookup st.rooms R = some room) :
    alookup (step st e).rooms R = none ↔
      ∃ s ctx, e = Event.disc s ∧ alookup st.sessions s = some ctx ∧
        ctx.currentRoomId = R ∧ removeP room.participants s = [] := by
  cases e with
  | join u R' un p =>
    constructor
    · intro hnone
      exfalso
      simp only [step, handle, joinRoom] at hnone
      by_cases hRR : R = R'
      · subst hRR
        rw [alookup_aset_self] at hnone
        cases hnone
      · rw [alookup_aset_ne _ _ _ _ hRR, hR] at hnone
        cases hnone
    · rintro ⟨s, ctx, heq, -, -, -⟩
      cases heq
  | kick u target =>
    constructor
    · intro hnone
      exfalso
      cases hses : alookup st.sessions u with
      | none =>
        simp only [step, handle, kickUser, hses] at hnone
        rw [hR] at hnone
        cases hnone
      | some ctx =>
        cases hroom : alookup st.rooms ctx.currentRoomId with
        | none =>
          simp only [step, handle, kickUser, hses, hroom] at hnone
          rw [hR] at hnone
          cases hnone
        | some rm =>
          by_cases hcr : rm.isCreator u
          · by_cases htg : target = u
            · simp only [step, handle, kickUser, hses, hroom] at hnone
              rw [if_neg (by simp [hcr]), if_pos htg] at hnone
              rw [hR] at hnone
              cases hnone
            · simp only [step, handle, kickUser, hses, hroom] at hnone
              rw [if_neg (by simp [hcr]), if_neg htg] at hnone
              by_cases hRR : R = ctx.currentRoomId
              · subst hRR
                rw [alookup_aset_self] at hnone
                cases hnone
              · rw [alookup_aset_ne _ _ _ _ hRR, hR] at hnone
                cases hnone
          · simp only [step, handle, kickUser, hses, hroom] at hnone
            rw [if_pos (by simp [hcr])] at hnone
            rw [hR] at hnone
            cases hnone
    · rintro ⟨s, ctx, heq, -, -, -⟩
      cases heq
  | disc u =>
    cases hses : alookup st.sessions u with
    | none =>
      simp only [step, handle, disconnectSocket, hses]
      constructor
      · intro hnone
        rw [hR] at hnone
        cases hnone
      · rintro ⟨s, ctx, heq, hses', -, -⟩
        cases heq
        rw [hses] at hses'
        cases hses'
    | some ctx =>
      cases hroom : alookup st.rooms ctx.currentRoomId with
      | none =>
        simp only [step, handle, disconnectSocket, hses, hroom]
        constructor
        · intro hnone
          rw [hR] at hnone
          cases hnone
        · rintro ⟨s, ctx', heq, hses', hcur, -⟩
          cases heq
          rw [hses] at hses'
          cases hses'
          rw [hcur, hR] at hroom
          cases hroom
      | some rm =>
        by_cases hempty : (rm.removeParticipant u).isEmpty
        · simp only [step, handle, disconnectSocket, hses, hroom]
          rw [if_pos hempty]
          constructor
          · intro hnone
            by_cases hRR : R = ctx.currentRoomId
            · subst hRR
              rw [hR] at hroom
              cases hroom
              refine ⟨u, ctx, rfl, hses, rfl, ?_⟩
              simpa [Room.removeParticipant, Room.isEmpty] using hempty
            · rw [alookup_aerase_ne _ _ _ hRR, hR] at hnone
              cases hnone
          · rintro ⟨s, ctx', heq, hses', hcur, -⟩
            cases heq
            rw [hses] at hses'
            cases hses'
            rw [hcur]
            exact alookup_aerase_self _ _
        · simp only [step, handle, disconnectSocket, hses, hroom]
          rw [if_neg hempty]
          constructor
          · intro hnone
            exfalso
            by_cases hRR : R = ctx.currentRoomId
            · subst hRR
              rw [alookup_aset_self] at hnone
              cases hnone
            · rw [alookup_aset_ne _ _ _ _ hRR, hR] at hnone
              cases hnone
          · rintro ⟨s, ctx', heq, hses', hcur, hrem⟩
            cases heq
            rw [hses] at hses'
            cases hses'
            exfalso
            apply hempty
            rw [hcur, hR] at hroom
            cases hroom
            simp [Room.removeParticipant, Room.isEmpty, hrem]

/-- **C1**: for every sequence of join, kick and disconnect events run from
the fresh server state, every room present in the registry has at least one
participant (also after one further arbitrary event), and a registered room
is removed by the next event exactly when that event is a disconnect whose
session's current room it is and whose participant removal empties the
participant set — i.e. a room is removed exactly at the step at which its
participant set becomes empty, and exists in the registry iff it has ≥ 1
participant. -/
theorem room_registry_exists_iff_nonempty (evs : List Event) :
    (∀ R room, alookup (run initState evs).rooms R = some room →
      room.participants ≠ []) ∧
    (∀ e R room, alookup (step (run initState evs) e).rooms R = some room →
      room.participants ≠ []) ∧
    (∀ e R room, alookup (run initState evs).rooms R = some room →
      (alookup (step (run initState evs) e).rooms R = none ↔
        ∃ s ctx, e = Event.disc s ∧
          alookup (run initState evs).sessions s = some ctx ∧
          ctx.currentRoomId = R ∧ removeP room.participants s = [])) := by
  have hinv := registryInv_run evs initState registryInv_init
  refine ⟨hinv.1, ?_, ?_⟩
  · intro e R room h
    exact (registryInv_step _ e hinv).1 R room h
  · intro e R room hR
    exact room_removed_iff _ e R room hR

/-- Witness for C1: after `"a"` joins fresh room `"R"`, the room is in the
registry and nonempty, and the very disconnect of `"a"` removes it. -/
theorem room_registry_exists_iff_nonempty_witness :
    Room.participants (Room.mk "R" "a" [Participant.mk "a" "Al" "p1" false]) ≠ [] ∧
    alookup (step (run initState [Event.join "a" "R" (JsVal.str "Al") "p1"])
      (Event.disc "a")).rooms "R" = none := by
  have h := room_registry_exists_iff_nonempty [Event.join "a" "R" (JsVal.str "Al") "p1"]
  refine ⟨h.1 "R" (Room.mk "R" "a" [Participant.mk "a" "Al" "p1" false]) (by decide), ?_⟩
  exact (h.2.2 (Event.disc "a") "R" (Room.mk "R" "a" [Participant.mk "a" "Al" "p1" false])
    (by decide)).mpr ⟨"a", SessionCtx.mk "R" "Al", rfl, by decide, rfl, by decide⟩

/-! ### Creator stability (for C7) -/

theorem creator_preserved_step (st : ServerState) (e : Event) (R : String)
    (room room' : Room) (h : alookup st.rooms R = some room)
    (h' : alookup (step st e).rooms R = some room') :
    room'.creator = room.creator := by
  cases e with
  | join u R' un p =>
    simp only [step, handle, joinRoom] at h'
    by_cases hRR : R = R'
    · subst hRR
      rw [alookup_aset_self] at h'
      cases h'
      rw [h]
      simp [Room.addParticipant]
    · rw [alookup_aset_ne _ _ _ _ hRR, h] at h'
      cases h'
      rfl
  | kick u target =>
    cases hses : alookup st.sessions u with
    | none =>
      simp only [step, handle, kickUser, hses] at h'
      rw [h] at h'
      cases h'
      rfl
    | some ctx =>
      cases hroom : alookup st.rooms ctx.currentRoomId with
      | none =>
        simp only [step, handle, kickUser, hses, hroom] at h'
        rw [h] at h'
        cases h'
        rfl
      | some rm =>
        by_cases hcr : rm.isCreator u
        · by_cases htg : target = u
          · simp only [step, handle, kickUser, hses, hroom] at h'
            rw [if_neg (by simp [hcr]), if_pos htg, h] at h'
            cases h'
            rfl
          · simp only [step, handle, kickUser, hses, hroom] at h'
            rw [if_neg (by simp [hcr]), if_neg htg] at h'
            by_cases hRR : R = ctx.currentRoomId
            · subst hRR
              rw [alookup_aset_self] at h'
              cases h'
              rw [h] at hroom
              cases hroom
              simp [Room.removeParticipant]
            · rw [alookup_aset_ne _ _ _ _ hRR, h] at h'
              cases h'
              rfl
        · simp only [step, handle, kickUser, hses, hroom] at h'
          rw [if_pos (by simp [hcr]), h] at h'
          cases h'
          rfl
  | disc u =>
    cases hses : alookup st.sessions u with
    | none =>
      simp only [step, handle, disconnectSocket, hses] at h'
      rw [h] at h'
      cases h'
      rfl
    | some ctx =>
      cases hroom : alookup st.rooms ctx.currentRoomId with
      | none =>
        simp only [step, handle, disconnectSocket, hses, hroom] at h'
        rw [h] at h'
        cases h'
        rfl
      | some rm =>
        by_cases hempty : (rm.removeParticipant u).isEmpty
        · simp only [step, handle, disconnectSocket, hses, hroom] at h'
          rw [if_pos hempty] at h'
          by_cases hRR : R = ctx.currentRoomId
          · subst hRR
            rw [alookup_aerase_self] at h'
            cases h'
          · rw [alookup_aerase_ne _ _ _ hRR, h] at h'
            cases h'
            rfl
        · simp only [step, handle, disconnectSocket, hses, hroom] at h'
          rw [if_neg hempty] at h'
          by_cases hRR : R = ctx.currentRoomId
          · subst hRR
            rw [alookup_aset_self] at h'
            cases h'
            rw [h] at hroom
            cases hroom
            simp [Room.removeParticipant]
          · rw [alookup_aset_ne _ _ _ _ hRR, h] at h'
            cases h'
            rfl

theorem creator_preserved_run (evs : List Event) :
    ∀ st R room, alookup st.rooms R = some room →
    (∀ pre, pre <+: evs → (alookup (run st pre).rooms R).isSome) →
    ∀ room', alookup (run st evs).rooms R = some room' →
      room'.creator = room.creator := by
  induction evs with
  | nil =>
    intro st R room h _ room' h'
    rw [show run st [] = st from rfl, h] at h'
    cases h'
    rfl
  | cons e rest ih =>
    intro st R room h hpre room' h'
    have h1 : (alookup (run st [e]).rooms R).isSome := hpre [e] ⟨rest, rfl⟩
    rw [show run st [e] = step st e from rfl] at h1
    cases h2 : alookup (step st e).rooms R with
    | none =>
      rw [h2] at h1
      cases h1
    | some room1 =>
      have hc1 : room1.creator = room.creator := creator_preserved_step st e R room room1 h h2
      have hpre' : ∀ pre, pre <+: rest → (alookup (run (step st e) pre).rooms R).isSome := by
        intro pre hp
        obtain ⟨t, ht⟩ := hp
        have hp' : (e :: pre) <+: (e :: rest) := ⟨t, by rw [← ht]; rfl⟩
        have hx := hpre (e :: pre) hp'
        rw [show run st (e :: pre) = run (step st e) pre from rfl] at hx
        exact hx
      have hx := ih (step st e) R room1 h2 hpre' room'
        (by rw [show run st (e :: rest) = run (step st e) rest from rfl] at h'; exact h')
      rw [hx, hc1]

/-- **C7**: joining a room id absent from the registry yields a confirmation
with `isCreator = true`, and for as long as that room stays in the registry
(presence at every prefix of the subsequent event sequence), any later join
by a different socket yields a confirmation with `isCreator = false`. -/
theorem first_joiner_creator_later_joiners_not (st : ServerState) (s R : String)
    (username : JsVal) (peerId : String) (hfresh : alookup st.rooms R = none) :
    (∃ others, (joinRoom st s R username peerId).2 =
      [Emit.toSocket s (Msg.roomJoined others true),
       Emit.toChannelExcept R s (Msg.userJoined s (sanitizeUsername username) peerId)]) ∧
    (∀ evs t username' peerId', t ≠ s →
      (∀ pre, pre <+: evs →
        (alookup (run (step st (Event.join s R username peerId)) pre).rooms R).isSome) →
      ∃ others, (joinRoom (run (step st (Event.join s R username peerId)) evs)
          t R username' peerId').2 =
        [Emit.toSocket t (Msg.roomJoined others false),
         Emit.toChannelExcept R t (Msg.userJoined t (sanitizeUsername username') peerId')]) := by
  constructor
  · refine ⟨((Room.mk R s []).addParticipant s (sanitizeUsername username)
      peerId).getParticipantsList.filter (fun p => p.socketId ≠ s), ?_⟩
    simp [joinRoom, hfresh, Room.isCreator, Room.addParticipant]
  · intro evs t username' peerId' hts hpre
    have h1 : alookup (step st (Event.join s R username peerId)).rooms R =
        some ((Room.mk R s []).addParticipant s (sanitizeUsername username) peerId) := by
      simp only [step, handle, joinRoom, hfresh]
      exact alookup_aset_self _ _ _
    have hcreator1 :
        ((Room.mk R s []).addParticipant s (sanitizeUsername username) peerId).creator = s := by
      simp [Room.addParticipant]
    cases h2 : alookup (run (step st (Event.join s R username peerId)) evs).rooms R with
    | none =>
      have hx := hpre evs ⟨[], List.append_nil evs⟩
      rw [h2] at hx
      cases hx
    | some room2 =>
      have hc2 : room2.creator = s := by
        have hx := creator_preserved_run evs _ R _ h1 hpre room2 h2
        rw [hx, hcreator1]
      have hflag : (room2.addParticipant t (sanitizeUsername username') peerId').isCreator t
          = false := by
        simp only [Room.addParticipant, Room.isCreator]
        exact decide_eq_false (fun hh => hts (hh ▸ hc2.symm).symm)
      refine ⟨((room2.addParticipant t (sanitizeUsername username')
        peerId').getParticipantsList.filter (fun p => p.socketId ≠ t)), ?_⟩
      simp only [joinRoom, h2]
      rw [hflag]

/-- Witness for C7: `"a"` joins fresh `"R"` and is confirmed creator; `"b"`
joins immediately after and is confirmed non-creator. -/
theorem first_joiner_creator_witness :
    (∃ others, (joinRoom initState "a" "R" (JsVal.str "Al") "p1").2 =
      [Emit.toSocket "a" (Msg.roomJoined others true),
       Emit.toChannelExcept "R" "a" (Msg.userJoined "a" "Al" "p1")]) ∧
    (∃ others, (joinRoom (run (step initState (Event.join "a" "R" (JsVal.str "Al") "p1")) [])
        "b" "R" (JsVal.str "Bo") "p2").2 =
      [Emit.toSocket "b" (Msg.roomJoined others false),
       Emit.toChannelExcept "R" "b" (Msg.userJoined "b" "Bo" "p2")]) := by
  have h := first_joiner_creator_later_joiners_not initState "a" "R" (JsVal.str "Al") "p1"
    (by decide)
  constructor
  · have h1 := h.1
    rw [show sanitizeUsername (JsVal.str "Al") = "Al" from by decide] at h1
    exact h1
  · have h2 := h.2 [] "b" (JsVal.str "Bo") "p2" (by decide)
      (by
        intro pre hp
        obtain ⟨t, ht⟩ := hp
        rw [(List.append_eq_nil.mp ht).1]
        decide)
    rw [show sanitizeUsername (JsVal.str "Bo") = "Bo" from by decide] at h2
    exact h2

/-- **C4**: a kick request by a joined session whose room exists is rejected
with exactly one explicit error emission to the requester, and the entire
server state (registry, every room, every participant) is left unchanged,
whenever the requester is not the room's creator or targets itself. -/
theorem kick_rejected_leaves_state_unchanged (st : ServerState) (s target : String)
    (ctx : SessionCtx) (room : Room)
    (hses : alookup st.sessions s = some ctx)
    (hroom : alookup st.rooms ctx.currentRoomId = some room)
    (hrej : room.isCreator s = false ∨ target = s) :
    (kickUser st s target).1 = st ∧
    ∃ message, (kickUser st s target).2 = [Emit.toSocket s (Msg.errorMsg message)] := by
  rcases hrej with hcr | htg
  · exact ⟨by simp [kickUser, hses, hroom, hcr],
      "Only the room creator can kick users", by simp [kickUser, hses, hroom, hcr]⟩
  · by_cases hcr : room.isCreator s
    · subst htg
      exact ⟨by simp [kickUser, hses, hroom, hcr],
        "Cannot kick yourself", by simp [kickUser, hses, hroom, hcr]⟩
    · have hcr' : room.isCreator s = false := by
        simpa using hcr
      exact ⟨by simp [kickUser, hses, hroom, hcr'],
        "Only the room creator can kick users", by simp [kickUser, hses, hroom, hcr']⟩

/-- Witness for C4: `"b"` (a non-creator member of `"R"`) tries to kick the
creator `"a"`; the state is unchanged and one error is emitted. -/
theorem kick_rejected_witness :
    (kickUser (run initState [Event.join "a" "R" (JsVal.str "Al") "p1",
        Event.join "b" "R" (JsVal.str "Bo") "p2"]) "b" "a").1 =
      run initState [Event.join "a" "R" (JsVal.str "Al") "p1",
        Event.join "b" "R" (JsVal.str "Bo") "p2"] ∧
    ∃ message, (kickUser (run initState [Event.join "a" "R" (JsVal.str "Al") "p1",
        Event.join "b" "R" (JsVal.str "Bo") "p2"]) "b" "a").2 =
      [Emit.toSocket "b" (Msg.errorMsg message)] :=
  kick_rejected_leaves_state_unchanged _ "b" "a" (SessionCtx.mk "R" "Bo")
    (Room.mk "R" "a" [Participant.mk "a" "Al" "p1" false, Participant.mk "b" "Bo" "p2" false])
    (by decide) (by decide) (Or.inl (by decide))

/-- **C10**: a disconnect of a session that never joined (its `currentRoomId`
is still null, embedded as absence from the session map) leaves the entire
server state unchanged and emits nothing. -/
theorem disconnect_without_join_noop (st : ServerState) (s : String)
    (h : alookup st.sessions s = none) :
    disconnectSocket st s = (st, []) := by
  simp [disconnectSocket, h]

/-- Witness for C10: disconnecting the never-joined socket `"z"` after `"a"`
joined `"R"` changes nothing and emits nothing. -/
theorem disconnect_without_join_noop_witness :
    disconnectSocket (run initState [Event.join "a" "R" (JsVal.str "Al") "p1"]) "z" =
      (run initState [Event.join "a" "R" (JsVal.str "Al") "p1"], []) :=
  disconnect_without_join_noop _ "z" (by decide)

/-- Counterexample to **C2**: after `"a"` has joined `"R"` (so the session is
Joined), a second join request is not rejected: it changes the session's
recorded (roomId, username) context and emits a join confirmation, contrary
to the claimed protocol-violation rejection with no state change and no
emission. -/
theorem rejoin_not_rejected_cex :
    alookup (joinRoom (joinRoom initState "a" "R" (JsVal.str "Al") "p1").1
        "a" "R2" (JsVal.str "Bo") "p2").1.sessions "a" = some (SessionCtx.mk "R2" "Bo") ∧
    alookup (joinRoom initState "a" "R" (JsVal.str "Al") "p1").1.sessions "a" =
      some (SessionCtx.mk "R" "Al") ∧
    (joinRoom (joinRoom initState "a" "R" (JsVal.str "Al") "p1").1
        "a" "R2" (JsVal.str "Bo") "p2").2 ≠ [] := by
  decide

/-- **C2 (amended)**: a join request from a session that is already Joined is
not rejected; it is processed exactly like a fresh join — the username is
sanitized and the participant added to the target room, the session context
is overwritten with the new (roomId, username), and a join confirmation plus
a join announcement are emitted. -/
theorem rejoin_processed_as_fresh_join (st : ServerState) (s : String)
    (ctx : SessionCtx) (roomId : String) (username : JsVal) (peerId : String)
    (_hjoined : alookup st.sessions s = some ctx) :
    alookup (joinRoom st s roomId username peerId).1.sessions s =
      some (SessionCtx.mk roomId (sanitizeUsername username)) ∧
    (∃ room, alookup (joinRoom st s roomId username peerId).1.rooms roomId = some room ∧
      room.getParticipant s =
        some (Participant.mk s (sanitizeUsername username) peerId false)) ∧
    ∃ others b, (joinRoom st s roomId username peerId).2 =
      [Emit.toSocket s (Msg.roomJoined others b),
       Emit.toChannelExcept roomId s (Msg.userJoined s (sanitizeUsername username) peerId)] := by
  refine ⟨?_, ?_, ?_⟩
  · simp only [joinRoom]
    exact alookup_aset_self _ _ _
  · refine ⟨((match alookup st.rooms roomId with
      | some r => r
      | none => Room.mk roomId s []).addParticipant s (sanitizeUsername username) peerId),
      ?_, ?_⟩
    · simp only [joinRoom]
      exact alookup_aset_self _ _ _
    · simp only [Room.getParticipant, Room.addParticipant]
      exact getP_addP_self _ _
  · exact ⟨_, _, rfl⟩

/-- Witness for C2 (amended): the second join of the counterexample run. -/
theorem rejoin_processed_as_fresh_join_witness :
    alookup (joinRoom (joinRoom initState "a" "R" (JsVal.str "Al") "p1").1
        "a" "R2" (JsVal.str "Bo") "p2").1.sessions "a" =
      some (SessionCtx.mk "R2" (sanitizeUsername (JsVal.str "Bo"))) ∧
    (∃ room, alookup (joinRoom (joinRoom initState "a" "R" (JsVal.str "Al") "p1").1
        "a" "R2" (JsVal.str "Bo") "p2").1.rooms "R2" = some room ∧
      room.getParticipant "a" =
        some (Participant.mk "a" (sanitizeUsername (JsVal.str "Bo")) "p2" false)) ∧
    ∃ others b, (joinRoom (joinRoom initState "a" "R" (JsVal.str "Al") "p1").1
        "a" "R2" (JsVal.str "Bo") "p2").2 =
      [Emit.toSocket "a" (Msg.roomJoined others b),
       Emit.toChannelExcept "R2" "a"
         (Msg.userJoined "a" (sanitizeUsername (JsVal.str "Bo")) "p2")] :=
  rejoin_processed_as_fresh_join _ "a" (SessionCtx.mk "R" "Al") "R2" (JsVal.str "Bo") "p2"
    (by decide)

/-- Counterexample to **C3**: on the fresh server state the sending socket
`"a"` has no session context at all (Unjoined), yet its offer is forwarded
to the target channel. -/
theorem relay_forwards_while_unjoined_cex :
    alookup initState.sessions "a" = none ∧
    webrtcOffer initState "a" "b" "SDP" =
      (initState, [Emit.toChannelExcept "b" "a" (Msg.webrtcOffer "a" "SDP")]) := by
  decide

/-- **C3 (amended)**: the offer, answer and ICE-candidate relay handlers
forward the payload verbatim to the target's channel, tagged with the
sender's identity, regardless of the sender's session state — in particular
also while Unjoined — and never change the server state. -/
theorem relay_forwards_regardless_of_state (st : ServerState) (s toSid payload : String)
    (_hunjoined : alookup st.sessions s = none) :
    webrtcOffer st s toSid payload =
      (st, [Emit.toChannelExcept toSid s (Msg.webrtcOffer s payload)]) ∧
    webrtcAnswer st s toSid payload =
      (st, [Emit.toChannelExcept toSid s (Msg.webrtcAnswer s payload)]) ∧
    iceCandidateRelay st s toSid payload =
      (st, [Emit.toChannelExcept toSid s (Msg.iceCandidate s payload)]) :=
  ⟨rfl, rfl, rfl⟩

/-- Witness for C3 (amended): the unjoined socket `"a"` on the fresh state. -/
theorem relay_forwards_regardless_of_state_witness :
    webrtcOffer initState "a" "b" "SDP" =
      (initState, [Emit.toChannelExcept "b" "a" (Msg.webrtcOffer "a" "SDP")]) ∧
    webrtcAnswer initState "a" "b" "SDP" =
      (initState, [Emit.toChannelExcept "b" "a" (Msg.webrtcAnswer "a" "SDP")]) ∧
    iceCandidateRelay initState "a" "b" "SDP" =
      (initState, [Emit.toChannelExcept "b" "a" (Msg.iceCandidate "a" "SDP")]) :=
  relay_forwards_regardless_of_state initState "a" "b" "SDP" (by decide)

/-- An input on which `sanitizeUsername` must fall back to `"Anonymous"`:
a non-string value, or a string whose trim/slice/replace pipeline result is
empty (this includes the absent/empty-string cases). -/
def emptyishInput (v : JsVal) : Prop :=
  v = JsVal.nonString ∨ ∃ s, v = JsVal.str s ∧ sanitizePipeline s.toList = []

/-- **C5**: for every input, `sanitizeUsername` returns a string of length at
most 50 all of whose characters are letters, digits, whitespace, hyphen,
underscore or period; and it returns exactly `"Anonymous"` on every
non-string, absent, or empty-after-sanitization input.  Totality of the Lean
function embeds "raises no exception". -/
theorem sanitizeUsername_bounded_allowed_fallback (v : JsVal) :
    (sanitizeUsername v).length ≤ 50 ∧
    (sanitizeUsername v).toList.all allowedUsernameChar = true ∧
    (emptyishInput v → sanitizeUsername v = "Anonymous") := by
  cases v with
  | nonString => exact ⟨by decide, by decide, fun _ => rfl⟩
  | str s =>
    by_cases hs : s = ""
    · subst hs
      exact ⟨by decide, by decide, fun _ => by decide⟩
    · have hval : sanitizeUsername (JsVal.str s) =
          (if sanitizePipeline s.toList = [] then "Anonymous"
           else String.mk (sanitizePipeline s.toList)) := by
        simp only [sanitizeUsername]
        rw [if_neg hs]
      by_cases hr : sanitizePipeline s.toList = []
      · rw [hval, if_pos hr]
        exact ⟨by decide, by decide, fun _ => rfl⟩
      · rw [hval, if_neg hr]
        refine ⟨?_, ?_, ?_⟩
        · show (sanitizePipeline s.toList).length ≤ 50
          calc (sanitizePipeline s.toList).length
              ≤ ((jsTrim s.toList).take 50).length := List.length_filter_le _ _
            _ ≤ 50 := by rw [List.length_take]; exact min_le_left _ _
        · show (sanitizePipeline s.toList).all allowedUsernameChar = true
          rw [List.all_eq_true]
          intro c hc
          exact (List.mem_filter.mp hc).2
        · intro hempty
          rcases hempty with h | ⟨s', hs', hpipe⟩
          · cases h
          · cases hs'
            exact absurd hpipe hr

/-- Witness for C5: the all-symbols name `"@@@"` sanitizes to `"Anonymous"`,
within bounds and allowed characters. -/
theorem sanitizeUsername_witness :
    (sanitizeUsername (JsVal.str "@@@")).length ≤ 50 ∧
    (sanitizeUsername (JsVal.str "@@@")).toList.all allowedUsernameChar = true ∧
    sanitizeUsername (JsVal.str "@@@") = "Anonymous" := by
  have h := sanitizeUsername_bounded_allowed_fallback (JsVal.str "@@@")
  exact ⟨h.1, h.2.1, h.2.2 (Or.inr ⟨"@@@", rfl, by decide⟩)⟩

/-- Counterexample to **C6**: an ICE candidate from `"a"` that arrives while
no peer link for `"a"` exists leaves the orchestrator state unchanged and
applies nothing (not retained anywhere), and when the offer from `"a"` later
arrives and the link is created and negotiated, the earlier candidate is
never applied — it was discarded, not buffered. -/
theorem early_ice_candidate_dropped_cex :
    handleICECandidate (RtcState.mk [] []) "a" "cand" = (RtcState.mk [] [], []) ∧
    (handleOffer (handleICECandidate (RtcState.mk [] []) "a" "cand").1 "a" "offerSDP").2 =
      [RtcEffect.createdPeer "a" false, RtcEffect.signalPeer "a" "offerSDP"] ∧
    RtcEffect.signalPeer "a" "cand" ∉
      (handleOffer (handleICECandidate (RtcState.mk [] []) "a" "cand").1 "a" "offerSDP").2 := by
  decide

/-- **C6 (amended)**: an ICE candidate that arrives before any link exists
for its sender is dropped outright — no state change, no effect, and it is
not applied when the sender's offer later creates the link; a candidate
arriving while a link exists is applied to it immediately. -/
theorem early_ice_candidate_dropped (st : RtcState) (f candidate : String)
    (hnolink : st.peers.contains f = false) :
    handleICECandidate st f candidate = (st, []) ∧
    (∀ offer, candidate ≠ offer →
      RtcEffect.signalPeer f candidate ∉ (handleOffer st f offer).2) ∧
    (∀ st' c, st'.peers.contains f = true →
      handleICECandidate st' f c = (st', [RtcEffect.signalPeer f c])) := by
  have h1 : f ∉ st.peers := by simpa using hnolink
  refine ⟨?_, ?_, ?_⟩
  · simp [handleICECandidate, h1]
  · intro offer hco
    simp [handleOffer, createPeerConnection, h1, hco]
  · intro st' c h
    have h2 : f ∈ st'.peers := by simpa using h
    simp [handleICECandidate, h2]

/-- Witness for C6 (amended): concrete early candidate from `"a"`. -/
theorem early_ice_candidate_dropped_witness :
    handleICECandidate (RtcState.mk [] []) "a" "cand" = (RtcState.mk [] [], []) ∧
    RtcEffect.signalPeer "a" "cand" ∉
      (handleOffer (RtcState.mk [] []) "a" "offerSDP").2 ∧
    handleICECandidate (RtcState.mk ["a"] []) "a" "cand2" =
      (RtcState.mk ["a"] [], [RtcEffect.signalPeer "a" "cand2"]) := by
  have h := early_ice_candidate_dropped (RtcState.mk [] []) "a" "cand" (by decide)
  exact ⟨h.1, h.2.1 "offerSDP" (by decide), h.2.2 (RtcState.mk ["a"] []) "cand2" (by decide)⟩

theorem vadFlagIf (old newB : Bool) (hist : List ℚ) (ev : List VadEvent) (hev : ev ≠ []) :
    ((if newB ≠ old then (VadState.mk hist newB, ev)
        else (VadState.mk hist old, [])).2 ≠ [] ↔
      (if newB ≠ old then (VadState.mk hist newB, ev)
        else (VadState.mk hist old, [])).1.isSpeaking ≠ old) := by
  split_ifs with h
  · exact iff_of_true hev h
  · exact iff_of_false (fun hh => hh rfl) (fun hh => hh rfl)

theorem localVadFlagIf (old newB : Bool) (mx mn : ℚ) (hist : List ℚ)
    (ev : List VadEvent) (hev : ev ≠ []) :
    ((if newB ≠ old then (LocalVadState.mk mx mn hist newB, ev)
        else (LocalVadState.mk mx mn hist old, [])).2 ≠ [] ↔
      (if newB ≠ old then (LocalVadState.mk mx mn hist newB, ev)
        else (LocalVadState.mk mx mn hist old, [])).1.isLocalSpeaking ≠ old) := by
  split_ifs with h
  · exact iff_of_true hev h
  · exact iff_of_false (fun hh => hh rfl) (fun hh => hh rfl)

theorem localVadFlagValue (old newB : Bool) (mx mn : ℚ) (hist : List ℚ)
    (ev : List VadEvent) :
    (if newB ≠ old then (LocalVadState.mk mx mn hist newB, ev)
      else (LocalVadState.mk mx mn hist old, [])).1.isLocalSpeaking = newB := by
  split_ifs with h
  · rfl
  · exact (not_not.mp h).symm

/-- **C8**: both voice-activity detectors emit a speaking-state event on a
tick if and only if the boolean speaking flag differs between the two
consecutive ticks; and on the local monitor a set mute flag forces the
speaking flag to false regardless of the measured volume. -/
theorem vad_edge_triggered_and_mute_forced :
    (∀ socketId st volume,
      ((detectSpeakingTick socketId st volume).2 ≠ [] ↔
        (detectSpeakingTick socketId st volume).1.isSpeaking ≠ st.isSpeaking)) ∧
    (∀ st volume isMuted,
      ((monitorLocalAudioTick st volume isMuted).2 ≠ [] ↔
        (monitorLocalAudioTick st volume isMuted).1.isLocalSpeaking ≠ st.isLocalSpeaking)) ∧
    (∀ st volume, (monitorLocalAudioTick st volume true).1.isLocalSpeaking = false) := by
  refine ⟨?_, ?_, ?_⟩
  · intro socketId st volume
    simp only [detectSpeakingTick]
    exact vadFlagIf st.isSpeaking _ _ _ (by simp)
  · intro st volume isMuted
    simp only [monitorLocalAudioTick]
    exact localVadFlagIf st.isLocalSpeaking _ _ _ _ _ (by simp)
  · intro st volume
    simp only [monitorLocalAudioTick]
    rw [localVadFlagValue]
    simp

/-- Counterexample to **C9**: `removePeer` on an identity with no existing
link is not a no-op — it still fires the `peerDisconnected` callback — and
invoking it twice produces a second callback invocation, so the observable
effects of two invocations differ from those of one. -/
theorem removePeer_not_noop_cex :
    (removePeer (RtcState.mk [] []) "a").2 = [RtcEffect.peerDisconnectedCb "a"] ∧
    (removePeer (RtcState.mk [] []) "a").2 ≠ [] ∧
    (removePeer (removePeer (RtcState.mk ["a"] ["a"]) "a").1 "a").2 ≠
      (removePeer (RtcState.mk ["a"] ["a"]) "a").2 := by
  decide

theorem contains_filter_ne (l : List String) (a : String) :
    (l.filter (fun x => x ≠ a)).contains a = false := by
  induction l with
  | nil => rfl
  | cons x xs ih =>
    by_cases h : x = a
    · simp [List.filter_cons, h, ih]
    · simp [List.filter_cons, h, Ne.symm h, ih]

theorem filter_ne_idem (l : List String) (a : String) :
    (l.filter (fun x => x ≠ a)).filter (fun x => x ≠ a) = l.filter (fun x => x ≠ a) := by
  induction l with
  | nil => rfl
  | cons x xs ih =>
    by_cases h : x = a <;> simp [List.filter_cons, h, ih]

/-- **C9 (amended)**: `removePeer` is idempotent on the orchestrator state —
a second invocation leaves the state exactly as after the first — but every
invocation (including the second, and including one for an identity with no
link) fires the `peerDisconnected` callback, so the observable effects are
not those of a no-op. -/
theorem removePeer_idempotent_on_state (st : RtcState) (socketId : String) :
    (removePeer (removePeer st socketId).1 socketId).1 = (removePeer st socketId).1 ∧
    (removePeer (removePeer st socketId).1 socketId).2 =
      [RtcEffect.peerDisconnectedCb socketId] := by
  have hp : ((removePeer st socketId).1).peers.contains socketId = false :=
    contains_filter_ne _ _
  have ha : ((removePeer st socketId).1).audioElems.contains socketId = false :=
    contains_filter_ne _ _
  constructor
  · simp [removePeer, hp, ha, filter_ne_idem]
  · simp [removePeer, hp, ha]
